import Mathlib

/-!
Verification of the core of a small FastAPI backend: the lazy component
registry (`common/components.py`), the request-ID and logging middleware
(`server/middleware/middleware.py`, `server/middleware/bodylogger.py`),
the component metadata store (`common/components.py`,
`common/component_config.py`) and configuration loading (`common/env.py`).

The Python source is embedded shallowly: dictionaries become association
lists with Python dict update semantics, byte strings become `List Nat`,
`json.loads` becomes an executable recursive-descent parser over decoded
characters, and the aliasing behaviour of `get_component_metadata` is
modelled with an explicit heap of addressed objects.
-/

/-! ## Basic string utilities (models of Python `str.lower`, `str.upper`,
`in`, `startswith`) -/

def lowerChar (c : Char) : Char := Char.toLower c

def upperChar (c : Char) : Char := Char.toUpper c

def lowerStr (s : String) : String := String.mk (s.data.map lowerChar)

def upperStr (s : String) : String := String.mk (s.data.map upperChar)

/-- Does `pat` match at the head of `l`?  Helper for `startswith`/`in`. -/
def leadMatch : List Char → List Char → Bool
  | [], _ => true
  | _ :: _, [] => false
  | p :: ps, c :: cs => p = c && leadMatch ps cs

/-- Does `pat` occur contiguously in `l`?  Model of Python `pat in s`. -/
def infixMatch (pat : List Char) : List Char → Bool
  | [] => leadMatch pat []
  | c :: cs => leadMatch pat (c :: cs) || infixMatch pat cs

/-- Model of Python `pat in s` (substring containment). -/
def strContains (s pat : String) : Bool := infixMatch pat.data s.data

/-- Model of Python `s.startswith(pat)`. -/
def strStartsWith (s pat : String) : Bool := leadMatch pat.data s.data

/-- Python dict assignment `d[k] = v` on an association list: replaces the
value at the first occurrence of `k` in place, otherwise appends. -/
def upd {κ α : Type} [DecidableEq κ] (k : κ) (v : α) : List (κ × α) → List (κ × α)
  | [] => [(k, v)]
  | (k2, w) :: rest => if k2 = k then (k, v) :: rest else (k2, w) :: upd k v rest

/-- Association-list lookup keyed by decidable equality (Python `d[k]` /
`d.get(k)` on the association lists used throughout). -/
def alookup {κ α : Type} [DecidableEq κ] (k : κ) : List (κ × α) → Option α
  | [] => none
  | (k2, v) :: rest => if k2 = k then some v else alookup k rest

/-! ## `src/common/constants.py` -/

def REQUEST_ID_HEADER_VARIANTS : List String :=
  ["request-id", "Request-ID", "X-Request-ID", "x-request-id"]

def REQUEST_ID_RESPONSE_HEADER : String := "X-Request-ID"

def REQUEST_ID_RESPONSE_KEY : String := "request_id"

def SENSITIVE_HEADERS : List String := ["authorization", "cookie", "x-api-key", "api-key"]

def CONTENT_LENGTH_HEADER : String := "content-length"

def CONTENT_TYPE_HEADER : String := "content-type"

def APPLICATION_JSON : String := "application/json"

/-- The values bound at module level in `src/common/constants.py`. -/
inductive ConstVal where
  | strVal (s : String)
  | listVal (l : List String)
deriving DecidableEq

/-- The complete set of module attributes of `src/common/constants.py`,
translated line by line from the source file. -/
def constantsModule : List (String × ConstVal) :=
  [ ("REQUEST_ID_HEADER_VARIANTS", .listVal REQUEST_ID_HEADER_VARIANTS),
    ("REQUEST_ID_RESPONSE_HEADER", .strVal REQUEST_ID_RESPONSE_HEADER),
    ("REQUEST_ID_RESPONSE_KEY", .strVal REQUEST_ID_RESPONSE_KEY),
    ("SENSITIVE_HEADERS", .listVal SENSITIVE_HEADERS),
    ("CONTENT_LENGTH_HEADER", .strVal CONTENT_LENGTH_HEADER),
    ("CONTENT_TYPE_HEADER", .strVal CONTENT_TYPE_HEADER),
    ("APPLICATION_JSON", .strVal APPLICATION_JSON) ]

/-- Python attribute access `const.name`: `AttributeError` when the module
does not define `name`. -/
def moduleGetattr (name : String) : Except String ConstVal :=
  match alookup name constantsModule with
  | some v => .ok v
  | none => .error ("AttributeError: module common.constants has no attribute " ++ name)

/-! ## JSON values and a model of `json.loads` -/

/-- JSON values as produced by `json.loads` (booleans and floats omitted:
every theorem below is conditioned on a concrete parse result, so the
subset only narrows the modelled input space). -/
inductive Json where
  | null
  | num (n : Int)
  | str (s : String)
  | arr (xs : List Json)
  | obj (fields : List (String × Json))

def lbraceChar : Char := Char.ofNat 123

def rbraceChar : Char := Char.ofNat 125

def skipWs : List Char → List Char
  | [] => []
  | c :: cs => if c = ' ' ∨ c = '\t' ∨ c = '\n' ∨ c = '\r' then skipWs cs else c :: cs

def takeDigits : List Char → List Char × List Char
  | [] => ([], [])
  | c :: cs =>
    if c.isDigit then
      let p := takeDigits cs
      (c :: p.1, p.2)
    else ([], c :: cs)

def digitsToNat (ds : List Char) : Nat :=
  ds.foldl (fun a c => a * 10 + (c.toNat - 48)) 0

def escChar (e : Char) : Option Char :=
  if e = '"' then some '"'
  else if e = '\\' then some '\\'
  else if e = '/' then some '/'
  else if e = 'n' then some '\n'
  else if e = 't' then some '\t'
  else if e = 'r' then some '\r'
  else if e = 'b' then some (Char.ofNat 8)
  else if e = 'f' then some (Char.ofNat 12)
  else none

/-- Parse the remainder of a JSON string literal (after the opening quote),
returning the decoded characters and the input after the closing quote. -/
def parseStrRest : List Char → Option (List Char × List Char)
  | [] => none
  | '\\' :: e :: cs2 =>
    match escChar e with
    | some ec => (parseStrRest cs2).map (fun p => (ec :: p.1, p.2))
    | none => none
  | ['\\'] => none
  | c :: cs =>
    if c = '"' then some ([], cs)
    else (parseStrRest cs).map (fun p => (c :: p.1, p.2))

mutual

/-- Fuel-indexed recursive-descent parser for a JSON value. -/
def parseVal : Nat → List Char → Option (Json × List Char)
  | 0, _ => none
  | fuel + 1, cs0 =>
    match skipWs cs0 with
    | [] => none
    | c :: cs =>
      if c = lbraceChar then
        match skipWs cs with
        | [] => none
        | d :: ds => if d = rbraceChar then some (.obj [], ds) else parseMembers fuel (d :: ds)
      else if c = '[' then
        match skipWs cs with
        | [] => none
        | d :: ds => if d = ']' then some (.arr [], ds) else parseItems fuel (d :: ds)
      else if c = '"' then
        (parseStrRest cs).map (fun p => (.str (String.mk p.1), p.2))
      else if c = '-' then
        match takeDigits cs with
        | ([], _) => none
        | (ds, rest) => some (.num (-(digitsToNat ds : Int)), rest)
      else if c.isDigit then
        match takeDigits (c :: cs) with
        | (ds, rest) => some (.num (digitsToNat ds : Int), rest)
      else if c = 'n' then
        match cs with
        | 'u' :: 'l' :: 'l' :: rest => some (.null, rest)
        | _ => none
      else none

/-- Parse a nonempty member list of a JSON object, consuming the closing
brace. -/
def parseMembers : Nat → List Char → Option (Json × List Char)
  | 0, _ => none
  | fuel + 1, cs0 =>
    match skipWs cs0 with
    | [] => none
    | c :: cs1 =>
      if c = '"' then
        match parseStrRest cs1 with
        | none => none
        | some (key, rest1) =>
          match skipWs rest1 with
          | ':' :: rest2 =>
            match parseVal fuel rest2 with
            | none => none
            | some (v, rest3) =>
              match skipWs rest3 with
              | [] => none
              | d :: rest4 =>
                if d = ',' then
                  match parseMembers fuel rest4 with
                  | some (.obj fs, rest5) => some (.obj ((String.mk key, v) :: fs), rest5)
                  | _ => none
                else if d = rbraceChar then some (.obj [(String.mk key, v)], rest4)
                else none
          | _ => none
      else none

/-- Parse a nonempty element list of a JSON array, consuming the closing
bracket. -/
def parseItems : Nat → List Char → Option (Json × List Char)
  | 0, _ => none
  | fuel + 1, cs0 =>
    match parseVal fuel cs0 with
    | none => none
    | some (v, rest1) =>
      match skipWs rest1 with
      | [] => none
      | d :: rest2 =>
        if d = ',' then
          match parseItems fuel rest2 with
          | some (.arr vs, rest3) => some (.arr (v :: vs), rest3)
          | _ => none
        else if d = ']' then some (.arr [v], rest2)
        else none

end

/-- Model of `json.loads` on a decoded character sequence. -/
def jsonParseChars (cs : List Char) : Option Json :=
  match parseVal (2 * cs.length + 4) cs with
  | some (j, rest) => if skipWs rest = [] then some j else none
  | none => none

/-! ## UTF-8 decoding (models of `bytes.decode("utf-8")` strict and with
`errors="replace"`) -/

def contByte (b : Nat) : Bool := 128 ≤ b && b ≤ 191

/-- Constraint on the second byte of a multi-byte sequence, per RFC 3629
(what CPython's strict UTF-8 decoder enforces). -/
def secondByteOk (b b2 : Nat) : Bool :=
  if b = 224 then 160 ≤ b2 && b2 ≤ 191
  else if b = 237 then 128 ≤ b2 && b2 ≤ 159
  else if b = 240 then 144 ≤ b2 && b2 ≤ 191
  else if b = 244 then 128 ≤ b2 && b2 ≤ 143
  else contByte b2

/-- Strict UTF-8 decoding: `None` models a raised `UnicodeDecodeError`. -/
def utf8DecodeStrict : List Nat → Option (List Char)
  | [] => some []
  | b :: l =>
    if b < 128 then (utf8DecodeStrict l).map (fun cs => Char.ofNat b :: cs)
    else if 194 ≤ b && b ≤ 223 then
      match l with
      | [] => none
      | b2 :: l2 =>
        if contByte b2 then
          (utf8DecodeStrict l2).map (fun cs => Char.ofNat ((b - 192) * 64 + (b2 - 128)) :: cs)
        else none
    else if 224 ≤ b && b ≤ 239 then
      match l with
      | b2 :: b3 :: l2 =>
        if secondByteOk b b2 && contByte b3 then
          (utf8DecodeStrict l2).map
            (fun cs => Char.ofNat ((b - 224) * 4096 + (b2 - 128) * 64 + (b3 - 128)) :: cs)
        else none
      | _ => none
    else if 240 ≤ b && b ≤ 244 then
      match l with
      | b2 :: b3 :: b4 :: l2 =>
        if secondByteOk b b2 && contByte b3 && contByte b4 then
          (utf8DecodeStrict l2).map
            (fun cs =>
              Char.ofNat ((b - 240) * 262144 + (b2 - 128) * 4096 + (b3 - 128) * 64 + (b4 - 128)) :: cs)
        else none
      | _ => none
    else none

def replacementChar : Char := Char.ofNat 65533

/-- UTF-8 decoding with `errors="replace"` (fuel-indexed so the recursion
is structural on the fuel; one byte is consumed per unit of fuel at least,
so fuel `= length` suffices): a maximal invalid subpart is replaced by
U+FFFD and decoding resumes at the next byte. -/
def utf8DecodeReplaceFuel : Nat → List Nat → List Char
  | 0, _ => []
  | _, [] => []
  | fuel + 1, b :: l =>
    if b < 128 then Char.ofNat b :: utf8DecodeReplaceFuel fuel l
    else if 194 ≤ b && b ≤ 223 then
      match l with
      | [] => [replacementChar]
      | b2 :: l2 =>
        if contByte b2 then
          Char.ofNat ((b - 192) * 64 + (b2 - 128)) :: utf8DecodeReplaceFuel fuel l2
        else replacementChar :: utf8DecodeReplaceFuel fuel l
    else if 224 ≤ b && b ≤ 239 then
      match l with
      | [] => [replacementChar]
      | b2 :: l2 =>
        if secondByteOk b b2 then
          match l2 with
          | [] => [replacementChar]
          | b3 :: l3 =>
            if contByte b3 then
              Char.ofNat ((b - 224) * 4096 + (b2 - 128) * 64 + (b3 - 128)) :: utf8DecodeReplaceFuel fuel l3
            else replacementChar :: utf8DecodeReplaceFuel fuel l2
        else replacementChar :: utf8DecodeReplaceFuel fuel l
    else if 240 ≤ b && b ≤ 244 then
      match l with
      | [] => [replacementChar]
      | b2 :: l2 =>
        if secondByteOk b b2 then
          match l2 with
          | [] => [replacementChar]
          | b3 :: l3 =>
            if contByte b3 then
              match l3 with
              | [] => [replacementChar]
              | b4 :: l4 =>
                if contByte b4 then
                  Char.ofNat
                      ((b - 240) * 262144 + (b2 - 128) * 4096 + (b3 - 128) * 64 + (b4 - 128)) ::
                    utf8DecodeReplaceFuel fuel l4
                else replacementChar :: utf8DecodeReplaceFuel fuel l3
            else replacementChar :: utf8DecodeReplaceFuel fuel l2
        else replacementChar :: utf8DecodeReplaceFuel fuel l
    else replacementChar :: utf8DecodeReplaceFuel fuel l

/-- UTF-8 decoding with `errors="replace"`. -/
def utf8DecodeReplace (bs : List Nat) : List Char := utf8DecodeReplaceFuel bs.length bs

/-- `json.loads(body.decode("utf-8"))`: `None` models either a raised
`UnicodeDecodeError` or a raised `json.JSONDecodeError`. -/
def jsonLoadsBytes (bs : List Nat) : Option Json :=
  match utf8DecodeStrict bs with
  | some cs => jsonParseChars cs
  | none => none

/-- UTF-8 encoding of an ASCII string, for concrete inputs. -/
def asciiBytes (s : String) : List Nat := s.data.map Char.toNat

/-! ## `src/common/components.py`: the lazy component registry

Python instances are identified by opaque `Nat` ids.  A stored factory is
embedded by its invocation behaviour (the `Except` outcome of calling it);
a stored factory-registration function is embedded by the list of
`register_component_factory` calls it performs when invoked.  Invocation
counts are reported in an explicit trace. -/

deriving instance DecidableEq for Except

/-- The behaviour of a zero-argument factory: the instance it returns, or
the exception it raises. -/
abbrev FactoryBehavior := Except String Nat

/-- The behaviour of a factory-registration function: the
`register_component_factory(name, factory)` calls it performs. -/
abbrev RegistrarBehavior := List (String × FactoryBehavior)

/-- The three module-level maps of `components.py` that `get_component`
consults: `_component_registry`, `_component_factories`,
`_factory_registration_functions`. -/
structure Registry where
  instances : List (String × Nat)
  factories : List (String × FactoryBehavior)
  regFns : List (String × RegistrarBehavior)
deriving DecidableEq

/-- Exceptions that can escape `get_component`. -/
inductive PyExc where
  | keyError (name : String) (available : List String)
  | runtimeError (msg : String)
  | factoryRaised (e : String)
deriving DecidableEq

/-- Side effects recorded while resolving a component: which factories and
registrars were invoked, and the `Errorw` log events emitted. -/
structure Trace where
  factoryCalls : List String
  registrarCalls : List String
  errorLogs : List (String × String)
deriving DecidableEq

/-- Result of one `get_component` call: the returned value or raised
exception, the registry state afterwards, and the recorded side effects. -/
structure GetResult where
  result : Except PyExc Nat
  state : Registry
  trace : Trace
deriving DecidableEq

/-- The message of the `RuntimeError` raised when a registration function
did not register its factory (line 177 of `components.py`). -/
def registrationFailMsg (name : String) : String :=
  "Factory registration function for \x27" ++ name ++ "\x27 did not register the factory"

/-- Effect of invoking a stored factory-registration function: each
recorded `register_component_factory(name, factory)` call assigns
`_component_factories[name] = factory`. -/
def applyRegistrations (regs : RegistrarBehavior) (r : Registry) : Registry :=
  regs.foldl (fun acc p => { acc with factories := upd p.1 p.2 acc.factories }) r

/-- `get_component` (lines 118-187 of `components.py`): tier 1 cached
instance, tier 2 factory (memoizing the produced instance), tier 3
factory-registration function, otherwise `KeyError` listing all known
names. -/
def get_component (name : String) (r : Registry) : GetResult :=
  match alookup name r.instances with
  | some v => ⟨.ok v, r, ⟨[], [], []⟩⟩
  | none =>
    match alookup name r.factories with
    | some (.ok v) =>
      ⟨.ok v, { r with instances := upd name v r.instances }, ⟨[name], [], []⟩⟩
    | some (.error e) =>
      ⟨.error (.factoryRaised e), r, ⟨[name], [], [("Failed to initialize component", name)]⟩⟩
    | none =>
      match alookup name r.regFns with
      | some regs =>
        let r2 := applyRegistrations regs r
        match alookup name r2.factories with
        | some (.ok v) =>
          ⟨.ok v, { r2 with instances := upd name v r2.instances }, ⟨[name], [name], []⟩⟩
        | some (.error e) =>
          ⟨.error (.factoryRaised e), r2,
            ⟨[name], [name], [("Failed to register factory for component", name)]⟩⟩
        | none =>
          ⟨.error (.runtimeError (registrationFailMsg name)), r2,
            ⟨[], [name], [("Failed to register factory for component", name)]⟩⟩
      | none =>
        ⟨.error (.keyError name
            (r.regFns.map Prod.fst ++ r.factories.map Prod.fst ++ r.instances.map Prod.fst)),
          r, ⟨[], [], []⟩⟩

/-! ## `src/server/middleware/bodylogger.py` -/

/-- The captured body value: a parsed JSON structure or a decoded text
fallback. -/
inductive Parsed where
  | jsonVal (j : Json)
  | textVal (s : String)

/-- `decode("utf-8", errors="replace")[:500]`. -/
def decodeReplaceTrunc (bs : List Nat) : String :=
  String.mk ((utf8DecodeReplace bs).take 500)

/-- `parse_request_body` (lines 21-40 of `bodylogger.py`). -/
def parse_request_body (bodyBytes : List Nat) (contentType : String) : Option Parsed :=
  if bodyBytes = [] then none
  else if strContains contentType APPLICATION_JSON then
    match utf8DecodeStrict bodyBytes with
    | some cs =>
      match jsonParseChars cs with
      | some j => some (.jsonVal j)
      | none => some (.textVal (decodeReplaceTrunc bodyBytes))
    | none => some (.textVal (decodeReplaceTrunc bodyBytes))
  else some (.textVal (decodeReplaceTrunc bodyBytes))

/-- `read_and_parse_request_body` (lines 63-82 of `bodylogger.py`).  The
outcome of `await request.body()` is passed in: `.error` models a raised
exception, which the function swallows, leaving both values absent. -/
def read_and_parse_request_body (readOutcome : Except String (List Nat))
    (contentType : String) : Option Parsed × Option (List Nat) :=
  match readOutcome with
  | .error _ => (none, none)
  | .ok bs =>
    if bs = [] then (none, some bs)
    else (parse_request_body bs contentType, some bs)

/-! ## `src/server/middleware/middleware.py` -/

/-- A Starlette response as the middleware sees it: status, headers, and
the streamed body (`none` models a response without a `body_iterator`
attribute; an exhausted iterator is `some []`). -/
structure Response where
  status : Nat
  headers : List (String × String)
  bodyIterator : Option (List (List Nat))

/-- Case-insensitive header lookup (`headers.get(name)`), first match
wins. -/
def headerGet : List (String × String) → String → Option String
  | [], _ => none
  | (k, w) :: rest, name => if lowerStr k = lowerStr name then some w else headerGet rest name

/-- Remove every header whose name matches `name` case-insensitively. -/
def removeHeaderCI : List (String × String) → String → List (String × String)
  | [], _ => []
  | (k, w) :: rest, name =>
    if lowerStr k = lowerStr name then removeHeaderCI rest name
    else (k, w) :: removeHeaderCI rest name

/-- Starlette `MutableHeaders.__setitem__`: replace the first
case-insensitive match and drop duplicates, else append. -/
def headerSet : List (String × String) → String → String → List (String × String)
  | [], name, v => [(name, v)]
  | (k, w) :: rest, name, v =>
    if lowerStr k = lowerStr name then (name, v) :: removeHeaderCI rest name
    else (k, w) :: headerSet rest name v

/-- `{k.lower(): v for k, v in headers.items()}` — a Python dict
comprehension: keys lowercased, later duplicates overriding earlier
ones. -/
def dictLower (hs : List (String × String)) : List (String × String) :=
  hs.foldl (fun acc p => upd (lowerStr p.1) p.2 acc) []

/-- Python `d.pop(key, None)`: drop the binding of `key`. -/
def popKey : List (String × String) → String → List (String × String)
  | [], _ => []
  | (k, w) :: rest, key => if k = key then popKey rest key else (k, w) :: popKey rest key

/-- `_normalize_headers` (lines 16-27 of `middleware.py`): lowercase all
keys, then pop `content-length`. -/
def normalize_headers (hs : List (String × String)) : List (String × String) :=
  popKey (dictLower hs) CONTENT_LENGTH_HEADER

/-- The loop of `_get_or_generate_request_id` (lines 52-56): the first
variant whose header value is present and truthy (non-empty). -/
def firstTruthyHeader : List String → List (String × String) → Option String
  | [], _ => none
  | h :: rest, hs =>
    match headerGet hs h with
    | some v => if v = "" then firstTruthyHeader rest hs else some v
    | none => firstTruthyHeader rest hs

/-- `_get_or_generate_request_id` (lines 43-61 of `middleware.py`);
`freshUuid` is the value `str(uuid.uuid4())` would produce. -/
def get_or_generate_request_id (reqHeaders : List (String × String)) (freshUuid : String) :
    String :=
  (firstTruthyHeader REQUEST_ID_HEADER_VARIANTS reqHeaders).getD freshUuid

/-- The three ways the request-ID middleware can return: a fresh
`JSONResponse` (the framework serializes `content`), a fresh raw
`Response`, or the original response object passed through. -/
inductive MWOut where
  | jsonResponse (content : Json) (status : Nat) (headers : List (String × String))
  | rawResponse (content : List Nat) (status : Nat) (headers : List (String × String))
      (mediaType : String)
  | passthrough (r : Response)

/-- Headers of whichever response form the middleware returned. -/
def MWOut.outHeaders : MWOut → List (String × String)
  | .jsonResponse _ _ h => h
  | .rawResponse _ _ h _ => h
  | .passthrough r => r.headers

/-- `add_request_id` (lines 70-106 of `middleware.py`), given the response
produced by `call_next`.  Returns the bound request ID and the response
forwarded upstream. -/
def add_request_id (freshUuid : String) (reqHeaders : List (String × String))
    (resp : Response) : String × MWOut :=
  let request_id := get_or_generate_request_id reqHeaders freshUuid
  let resp1 : Response :=
    { resp with headers := headerSet resp.headers REQUEST_ID_RESPONSE_HEADER request_id }
  let content_type := (headerGet resp1.headers CONTENT_TYPE_HEADER).getD ""
  if strStartsWith content_type APPLICATION_JSON then
    match resp1.bodyIterator with
    | some chunks =>
      let body := chunks.flatten
      if body = [] then (request_id, .passthrough { resp1 with bodyIterator := some [] })
      else
        match jsonLoadsBytes body with
        | some (.obj fields) =>
          (request_id,
            .jsonResponse (.obj (upd REQUEST_ID_RESPONSE_KEY (.str request_id) fields))
              resp1.status (normalize_headers resp1.headers))
        | some _ => (request_id, .passthrough { resp1 with bodyIterator := some [] })
        | none =>
          (request_id,
            .rawResponse body resp1.status (normalize_headers resp1.headers) content_type)
    | none => (request_id, .passthrough resp1)
  else (request_id, .passthrough resp1)

/-- The forwarded response carries the request ID: under the
`X-Request-ID` header of a passed-through response (case-insensitive
lookup), or under the normalized lowercase `x-request-id` key of a
re-emitted response. -/
def carriesId (out : MWOut) (rid : String) : Prop :=
  match out with
  | .passthrough r => headerGet r.headers REQUEST_ID_RESPONSE_HEADER = some rid
  | .jsonResponse _ _ h => alookup "x-request-id" h = some rid
  | .rawResponse _ _ h _ => alookup "x-request-id" h = some rid

/-- The prefix of `log_request` (lines 112-116 of `middleware.py`) up to
and including the evaluation of `path not in const.EXCLUDED_LOG_PATHS`:
the local assignments cannot raise, then the attribute access on the
constants module is performed.  Returns `should_log` or the raised
exception. -/
def log_request_should_log (_method path _clientIp : String) : Except String Bool :=
  match moduleGetattr "EXCLUDED_LOG_PATHS" with
  | .ok (.listVal paths) => .ok (!(paths.contains path))
  | .ok (.strVal _) => .ok true
  | .error e => .error e

/-! ## Metadata store with reference semantics
(`_component_metadata`, `set_component_metadata`, `get_component_metadata`
in `src/common/components.py`; `_update_component_status` in
`src/common/component_config.py`)

`get_component_metadata` returns `_component_metadata.copy()` — a new
top-level dict holding the *same* list objects.  To reason about what a
caller can mutate through the returned value, Python's object graph is
made explicit: a heap maps addresses to top-level dicts (name → list
address), to metadata lists (ordered entry-dict addresses), and to entry
dicts (string key → string value). -/

structure Heap where
  next : Nat
  tops : List (Nat × List (String × Nat))
  lists : List (Nat × List Nat)
  entries : List (Nat × List (String × String))
deriving DecidableEq

/-- The fully dereferenced metadata mapping visible through a top-level
dict address: what the registry's `_component_metadata` denotes as plain
data. -/
def Heap.derefMeta (h : Heap) (topAddr : Nat) : List (String × List (List (String × String))) :=
  ((alookup topAddr h.tops).getD []).map
    (fun p =>
      (p.1, ((alookup p.2 h.lists).getD []).map
        (fun d => (alookup d h.entries).getD [])))

/-- `get_component_metadata` (lines 249-260 of `components.py`):
`_component_metadata.copy()` allocates a fresh top-level dict containing
the same name → list-object bindings. -/
def get_component_metadata (h : Heap) (regAddr : Nat) : Heap × Nat :=
  (⟨h.next + 1, (h.next, (alookup regAddr h.tops).getD []) :: h.tops, h.lists, h.entries⟩,
    h.next)

/-- Caller mutation `returned[name] = listAddr` on a top-level dict
object. -/
def Heap.topSet (h : Heap) (topAddr : Nat) (name : String) (listAddr : Nat) : Heap :=
  { h with
    tops := h.tops.map (fun p => if p.1 = topAddr then (p.1, upd name listAddr p.2) else p) }

/-- Caller mutation `item[k] = v` on an entry dict object (exactly what
`_update_component_status` performs on the entries it reached through
`get_component_metadata()`). -/
def Heap.setEntryField (h : Heap) (entryAddr : Nat) (k v : String) : Heap :=
  { h with
    entries := h.entries.map (fun p => if p.1 = entryAddr then (p.1, upd k v p.2) else p) }

/-! ## `src/common/env.py`: configuration loading -/

/-- The state of one candidate configuration file as `_try_read` finds it:
absent, present but unreadable (`IOError`/`PermissionError` on open), or
present with the given text content. -/
inductive FileState where
  | missing
  | unreadable (err : String)
  | content (text : String)

/-- `_try_read` (lines 62-83 of `env.py`): `None` if the file does not
exist; otherwise parse it, raising (`.error`) on an unreadable file or
malformed JSON. -/
def tryRead (fs : FileState) : Except String (Option Json) :=
  match fs with
  | .missing => .ok none
  | .unreadable e => .error e
  | .content text =>
    match jsonParseChars text.data with
    | some j => .ok (some j)
    | none => .error "JSONDecodeError"

/-- The default field values of the `Env` struct (lines 12-22 of
`env.py`). -/
def defaultEnv : List (String × Json) :=
  [ ("SERVER_HOST", .str "0.0.0.0"), ("SERVER_PORT", .num 8080), ("APP_NAME", .str "app"),
    ("ENV", .str "dev1"), ("DB_HOST", .str "localhost"), ("DB_PORT", .num 3306),
    ("DB_USER", .str "root"), ("DB_PASSWORD", .str ""), ("DB_NAME", .str "testdb") ]

/-- `Env.update_from_dict` (lines 24-29 of `env.py`): for each key,
uppercase it and set the attribute only when it already exists. -/
def update_from_dict (env : List (String × Json)) (data : List (String × Json)) :
    List (String × Json) :=
  data.foldl
    (fun acc p =>
      if (alookup (upperStr p.1) acc).isSome then upd (upperStr p.1) p.2 acc else acc)
    env

/-- The candidate configuration paths of `InitializeConfig` (line 96 of
`env.py`). -/
def configFiles : List String := ["/etc/config.json", "config.json"]

/-- Observable outcome of `InitializeConfig`: the final `Env`, the
`Errorw("Error reading config file", ...)` events, which candidate (by
index) supplied the configuration, and whether the final
`Error("Config file having issue...")` line was logged. -/
structure InitResult where
  env : List (String × Json)
  errorLogs : List String
  loadedFrom : Option Nat
  finalErrorLogged : Bool

/-- The loop of `InitializeConfig` (lines 96-108 of `env.py`) over the
states of the candidate files: a successful dict read updates `Env` and
returns; `None` (missing file) falls through silently; a raised error is
caught, logged, and falls through.  (`update_from_dict` on a non-dict
value raises `AttributeError`, caught by the same handler.)  If no
candidate loads, the final error line is logged. -/
def initializeConfigLoop (env : List (String × Json)) : List FileState → InitResult
  | [] => ⟨env, [], none, true⟩
  | f :: rest =>
    match tryRead f with
    | .error e =>
      let r := initializeConfigLoop env rest
      ⟨r.env, e :: r.errorLogs, r.loadedFrom.map (· + 1), r.finalErrorLogged⟩
    | .ok none =>
      let r := initializeConfigLoop env rest
      ⟨r.env, r.errorLogs, r.loadedFrom.map (· + 1), r.finalErrorLogged⟩
    | .ok (some (.obj kvs)) => ⟨update_from_dict env kvs, [], some 0, false⟩
    | .ok (some _) =>
      let r := initializeConfigLoop env rest
      ⟨r.env, "AttributeError" :: r.errorLogs, r.loadedFrom.map (· + 1), r.finalErrorLogged⟩

/-- `InitializeConfig` (lines 85-108 of `env.py`), given the states of the
two candidate files. -/
def InitializeConfig (files : List FileState) : InitResult :=
  initializeConfigLoop defaultEnv files

/-! # Lemmas and claim theorems -/

/-! ## Association-list lemmas -/

theorem alookup_upd_self {κ α : Type} [DecidableEq κ] (k : κ) (v : α)
    (l : List (κ × α)) : alookup k (upd k v l) = some v := by
  induction l with
  | nil => simp [upd, alookup]
  | cons hd tl ih =>
    obtain ⟨k2, w⟩ := hd
    by_cases h : k2 = k
    · simp [upd, h, alookup]
    · simp [upd, h, alookup, ih]

theorem alookup_upd_ne {κ α : Type} [DecidableEq κ] (k k2 : κ) (v : α)
    (l : List (κ × α)) (h : k2 ≠ k) : alookup k2 (upd k v l) = alookup k2 l := by
  induction l with
  | nil =>
    simp only [upd, alookup]
    rw [if_neg (fun hh => h hh.symm)]
  | cons hd tl ih =>
    obtain ⟨k3, w⟩ := hd
    by_cases h3 : k3 = k
    · subst h3
      simp only [upd, if_pos rfl, alookup]
      rw [if_neg (fun hh => h hh.symm), if_neg (fun hh => h hh.symm)]
    · simp [upd, h3, alookup, ih]

/-! ## Registry lemmas -/

theorem applyRegistrations_instances (regs : RegistrarBehavior) (r : Registry) :
    (applyRegistrations regs r).instances = r.instances := by
  induction regs generalizing r with
  | nil => rfl
  | cons hd tl ih => simpa [applyRegistrations] using ih _

theorem applyRegistrations_regFns (regs : RegistrarBehavior) (r : Registry) :
    (applyRegistrations regs r).regFns = r.regFns := by
  induction regs generalizing r with
  | nil => rfl
  | cons hd tl ih => simpa [applyRegistrations] using ih _

/-! ## Substring lemmas -/

theorem leadMatch_append (p r : List Char) : leadMatch p (p ++ r) = true := by
  induction p with
  | nil => simp [leadMatch]
  | cons c cs ih => simp [leadMatch, ih]

theorem infixMatch_append (pat a b : List Char) : infixMatch pat (a ++ (pat ++ b)) = true := by
  induction a with
  | nil =>
    cases pat with
    | nil => cases b <;> simp [infixMatch, leadMatch]
    | cons p ps =>
      have hl := leadMatch_append (p :: ps) b
      simp only [infixMatch, List.nil_append, List.cons_append, Bool.or_eq_true]
      exact Or.inl (by simpa using hl)
  | cons c cs ih => simp [infixMatch, ih]

theorem strContains_append (a mid b : String) :
    strContains (a ++ mid ++ b) mid = true := by
  have : (a ++ mid ++ b).data = a.data ++ (mid.data ++ b.data) := by
    simp [String.data_append]
  simp [strContains, this, infixMatch_append]

/-! ## C1 — factory memoization -/

/-- C1: for a name with a registered factory and no cached instance, the
first `get_component` invokes the factory exactly once (the trace records
one invocation), stores the produced instance in `_component_registry`,
and returns it; any later `get_component` on a state caching that
instance returns the identical instance with an empty trace (no factory
invocation) and an unchanged state. -/
theorem factory_memoized_on_first_resolve (r : Registry) (name : String) (v : Nat)
    (hInst : alookup name r.instances = none)
    (hFac : alookup name r.factories = some (.ok v)) :
    get_component name r =
        ⟨.ok v, { r with instances := upd name v r.instances }, ⟨[name], [], []⟩⟩ ∧
      alookup name (get_component name r).state.instances = some v ∧
      (∀ s : Registry, alookup name s.instances = some v →
        get_component name s = ⟨.ok v, s, ⟨[], [], []⟩⟩) := by
  refine ⟨?_, ?_, ?_⟩
  · simp [get_component, hInst, hFac]
  · simp [get_component, hInst, hFac, alookup_upd_self]
  · intro s hs
    simp [get_component, hs]

theorem factory_memoized_on_first_resolve_witness :
    get_component "database" ⟨[], [("database", .ok 7)], []⟩ =
        ⟨.ok 7, ⟨upd "database" 7 [], [("database", .ok 7)], []⟩, ⟨["database"], [], []⟩⟩ ∧
      get_component "database" ⟨[("database", 7)], [("database", .ok 7)], []⟩ =
        ⟨.ok 7, ⟨[("database", 7)], [("database", .ok 7)], []⟩, ⟨[], [], []⟩⟩ := by
  have h := factory_memoized_on_first_resolve ⟨[], [("database", .ok 7)], []⟩ "database" 7
    rfl rfl
  exact ⟨h.1, h.2.2 ⟨[("database", 7)], [("database", .ok 7)], []⟩ rfl⟩

/-! ## C2 — factory failure: propagation, no negative caching -/

/-- C2 counterexample: the exception escaping `get_component` after a
factory failure is the factory's own exception, re-raised unchanged
(line 161 of `components.py` is a bare `raise`): for two registries whose
factories for the distinct names `alpha` and `beta` raise the same
exception, the escaping errors are identical, so the raised error is not
a `ComponentInitializationError` tagged with the component name (the name
reaches only the error log). -/
theorem factory_error_not_name_tagged :
    (get_component "alpha" ⟨[], [("alpha", .error "boom")], []⟩).result =
        (get_component "beta" ⟨[], [("beta", .error "boom")], []⟩).result ∧
      (get_component "alpha" ⟨[], [("alpha", .error "boom")], []⟩).result =
        .error (.factoryRaised "boom") := by
  exact ⟨rfl, rfl⟩

/-- C2 (amended): when the factory for `name` raises `e`, `get_component`
propagates the factory's own exception unchanged to the caller (the
component name is recorded in the error log, not attached to the raised
error), leaves the registry state unchanged with nothing cached under
`name`, and a later `get_component` for `name` invokes the factory
again. -/
theorem factory_error_propagated_uncached (r : Registry) (name : String) (e : String)
    (hInst : alookup name r.instances = none)
    (hFac : alookup name r.factories = some (.error e)) :
    get_component name r =
        ⟨.error (.factoryRaised e), r,
          ⟨[name], [], [("Failed to initialize component", name)]⟩⟩ ∧
      alookup name (get_component name r).state.instances = none ∧
      (get_component name (get_component name r).state).trace.factoryCalls = [name] := by
  have h1 : get_component name r =
      ⟨.error (.factoryRaised e), r,
        ⟨[name], [], [("Failed to initialize component", name)]⟩⟩ := by
    simp [get_component, hInst, hFac]
  refine ⟨h1, ?_, ?_⟩
  · rw [h1]
    exact hInst
  · rw [h1]
    simp [get_component, hInst, hFac]

theorem factory_error_propagated_uncached_witness :
    get_component "database" ⟨[], [("database", .error "boom")], []⟩ =
        ⟨.error (.factoryRaised "boom"), ⟨[], [("database", .error "boom")], []⟩,
          ⟨["database"], [], [("Failed to initialize component", "database")]⟩⟩ ∧
      (get_component "database"
          (get_component "database"
            ⟨[], [("database", .error "boom")], []⟩).state).trace.factoryCalls =
        ["database"] := by
  have h := factory_error_propagated_uncached ⟨[], [("database", .error "boom")], []⟩
    "database" "boom" rfl rfl
  exact ⟨h.1, h.2.2⟩

/-! ## C3 — deferred registrar tier -/

/-- C3: for a name with no cached instance and no factory but a stored
factory-registration function, `get_component` invokes the registration
function (recorded in the trace) and never removes it from the registry;
if the factories map afterwards holds a succeeding factory for the name,
that factory is invoked and its instance is memoized into
`_component_registry` and returned; if no factory was populated for the
name, the call fails with the `RuntimeError` whose message names the
component (the `RegistrationInvariantError` of the specification). -/
theorem deferred_registrar_resolution (r : Registry) (name : String)
    (regs : RegistrarBehavior)
    (hInst : alookup name r.instances = none)
    (hFac : alookup name r.factories = none)
    (hReg : alookup name r.regFns = some regs) :
    (get_component name r).trace.registrarCalls = [name] ∧
      (get_component name r).state.regFns = r.regFns ∧
      (∀ v, alookup name (applyRegistrations regs r).factories = some (.ok v) →
        get_component name r =
          ⟨.ok v,
            { applyRegistrations regs r with
              instances := upd name v (applyRegistrations regs r).instances },
            ⟨[name], [name], []⟩⟩) ∧
      (alookup name (applyRegistrations regs r).factories = none →
        (get_component name r).result = .error (.runtimeError (registrationFailMsg name)) ∧
          strContains (registrationFailMsg name) name = true) := by
  refine ⟨?_, ?_, ?_, ?_⟩
  · simp only [get_component, hInst, hFac, hReg]
    match hh : alookup name (applyRegistrations regs r).factories with
    | some (.ok v) => simp [hh]
    | some (.error e) => simp [hh]
    | none => simp [hh]
  · simp only [get_component, hInst, hFac, hReg]
    match hh : alookup name (applyRegistrations regs r).factories with
    | some (.ok v) => simp [hh, applyRegistrations_regFns]
    | some (.error e) => simp [hh, applyRegistrations_regFns]
    | none => simp [hh, applyRegistrations_regFns]
  · intro v hv
    simp [get_component, hInst, hFac, hReg, hv]
  · intro hnone
    refine ⟨?_, ?_⟩
    · simp [get_component, hInst, hFac, hReg, hnone]
    · have : registrationFailMsg name =
          "Factory registration function for \x27" ++ name ++
            "\x27 did not register the factory" := rfl
      rw [this]
      exact strContains_append "Factory registration function for \x27" name
        "\x27 did not register the factory"

theorem deferred_registrar_resolution_witness :
    get_component "database" ⟨[], [], [("database", [("database", .ok 9)])]⟩ =
        ⟨.ok 9,
          ⟨upd "database" 9 [], upd "database" (.ok 9) [],
            [("database", [("database", .ok 9)])]⟩,
          ⟨["database"], ["database"], []⟩⟩ ∧
      (get_component "missing" ⟨[], [], [("missing", [])]⟩).result =
        .error (.runtimeError (registrationFailMsg "missing")) := by
  have h1 := deferred_registrar_resolution ⟨[], [], [("database", [("database", .ok 9)])]⟩
    "database" [("database", .ok 9)] rfl rfl rfl
  have h2 := deferred_registrar_resolution ⟨[], [], [("missing", [])]⟩
    "missing" [] rfl rfl rfl
  exact ⟨h1.2.2.1 9 rfl, (h2.2.2.2 rfl).1⟩

/-! ## C5 — request body capture -/

/-- C5: an empty body is captured as absent (`None`, while the raw bytes
are `b""`, not `None`); an exception while reading the body is swallowed
and leaves the captured body absent; for a non-empty body with a
content-type containing `application/json` that decodes and parses, the
captured value is the parsed structure; if the strict UTF-8 decode or the
JSON parse fails, or the content-type is not JSON, the captured value is
the replacement-decoded text truncated to 500 characters. -/
theorem request_body_capture_rules (ct : String) (bs : List Nat) :
    (∀ err : String, read_and_parse_request_body (.error err) ct = (none, none)) ∧
      read_and_parse_request_body (.ok []) ct = (none, some []) ∧
      (∀ cs j, bs ≠ [] → strContains ct APPLICATION_JSON = true →
        utf8DecodeStrict bs = some cs → jsonParseChars cs = some j →
        read_and_parse_request_body (.ok bs) ct = (some (.jsonVal j), some bs)) ∧
      (bs ≠ [] → strContains ct APPLICATION_JSON = true →
        (utf8DecodeStrict bs = none ∨
          ∃ cs, utf8DecodeStrict bs = some cs ∧ jsonParseChars cs = none) →
        read_and_parse_request_body (.ok bs) ct =
          (some (.textVal (decodeReplaceTrunc bs)), some bs)) ∧
      (bs ≠ [] → strContains ct APPLICATION_JSON = false →
        read_and_parse_request_body (.ok bs) ct =
          (some (.textVal (decodeReplaceTrunc bs)), some bs)) ∧
      (decodeReplaceTrunc bs).data.length ≤ 500 := by
  refine ⟨fun err => rfl, rfl, ?_, ?_, ?_, ?_⟩
  · intro cs j hne hct hdec hparse
    simp [read_and_parse_request_body, hne, parse_request_body, hct, hdec, hparse]
  · intro hne hct hfail
    rcases hfail with hdec | ⟨cs, hdec, hparse⟩
    · simp [read_and_parse_request_body, hne, parse_request_body, hct, hdec]
    · simp [read_and_parse_request_body, hne, parse_request_body, hct, hdec, hparse]
  · intro hne hct
    simp [read_and_parse_request_body, hne, parse_request_body, hct]
  · have h1 : (decodeReplaceTrunc bs).data = (utf8DecodeReplace bs).take 500 := rfl
    rw [h1, List.length_take]
    exact Nat.min_le_left _ _

theorem request_body_capture_rules_witness :
    read_and_parse_request_body (.ok (asciiBytes "\x7b\x22a\x22: 1\x7d")) "application/json" =
        (some (.jsonVal (.obj [("a", .num 1)])), some (asciiBytes "\x7b\x22a\x22: 1\x7d")) ∧
      read_and_parse_request_body (.ok (asciiBytes "hello")) "text/plain" =
        (some (.textVal (decodeReplaceTrunc (asciiBytes "hello"))),
          some (asciiBytes "hello")) ∧
      read_and_parse_request_body (.ok []) "text/plain" = (none, some []) := by
  have h1 := request_body_capture_rules "application/json" (asciiBytes "\x7b\x22a\x22: 1\x7d")
  have h2 := request_body_capture_rules "text/plain" (asciiBytes "hello")
  refine ⟨h1.2.2.1 ("\x7b\x22a\x22: 1\x7d".data) (.obj [("a", .num 1)])
      (by decide) (by decide) rfl rfl, ?_, h2.2.1⟩
  exact h2.2.2.2.2.1 (by decide) (by decide)


/-! ## Header lemmas -/

theorem headerGet_congr (hs : List (String × String)) (n n2 : String)
    (h : lowerStr n = lowerStr n2) : headerGet hs n = headerGet hs n2 := by
  induction hs with
  | nil => rfl
  | cons hd tl ih =>
    obtain ⟨k, w⟩ := hd
    simp only [headerGet, h, ih]

theorem headerGet_removeHeaderCI (hs : List (String × String)) (n n2 : String)
    (h : lowerStr n2 ≠ lowerStr n) :
    headerGet (removeHeaderCI hs n) n2 = headerGet hs n2 := by
  induction hs with
  | nil => rfl
  | cons hd tl ih =>
    obtain ⟨k, w⟩ := hd
    by_cases hk : lowerStr k = lowerStr n
    · have hk2 : ¬ lowerStr k = lowerStr n2 := by
        rw [hk]
        exact fun hh => h hh.symm
      rw [removeHeaderCI, if_pos hk, headerGet, if_neg hk2]
      exact ih
    · rw [removeHeaderCI, if_neg hk]
      by_cases hk2 : lowerStr k = lowerStr n2
      · rw [headerGet, if_pos hk2, headerGet, if_pos hk2]
      · rw [headerGet, if_neg hk2, headerGet, if_neg hk2]
        exact ih

theorem headerGet_headerSet_ne (hs : List (String × String)) (n v n2 : String)
    (h : lowerStr n2 ≠ lowerStr n) :
    headerGet (headerSet hs n v) n2 = headerGet hs n2 := by
  have hn : ¬ lowerStr n = lowerStr n2 := fun hh => h hh.symm
  induction hs with
  | nil => simp only [headerSet, headerGet, if_neg hn]
  | cons hd tl ih =>
    obtain ⟨k, w⟩ := hd
    by_cases hk : lowerStr k = lowerStr n
    · have hk2 : ¬ lowerStr k = lowerStr n2 := by
        rw [hk]
        exact fun hh => h hh.symm
      rw [headerSet, if_pos hk, headerGet, if_neg hn, headerGet, if_neg hk2]
      exact headerGet_removeHeaderCI tl n n2 h
    · rw [headerSet, if_neg hk]
      by_cases hk2 : lowerStr k = lowerStr n2
      · rw [headerGet, if_pos hk2, headerGet, if_pos hk2]
      · rw [headerGet, if_neg hk2, headerGet, if_neg hk2]
        exact ih

theorem headerGet_headerSet_self (hs : List (String × String)) (n v : String) :
    headerGet (headerSet hs n v) n = some v := by
  induction hs with
  | nil => rw [headerSet, headerGet, if_pos rfl]
  | cons hd tl ih =>
    obtain ⟨k, w⟩ := hd
    by_cases hk : lowerStr k = lowerStr n
    · rw [headerSet, if_pos hk, headerGet, if_pos rfl]
    · rw [headerSet, if_neg hk, headerGet, if_neg hk]
      exact ih

theorem mem_removeHeaderCI (hs : List (String × String)) (n : String) (p : String × String)
    (hp : p ∈ removeHeaderCI hs n) : lowerStr p.1 ≠ lowerStr n := by
  induction hs with
  | nil => cases hp
  | cons hd tl ih =>
    obtain ⟨k, w⟩ := hd
    by_cases hk : lowerStr k = lowerStr n
    · rw [removeHeaderCI, if_pos hk] at hp
      exact ih hp
    · rw [removeHeaderCI, if_neg hk] at hp
      rcases List.mem_cons.mp hp with hh | hh
      · rw [hh]
        exact hk
      · exact ih hh

theorem headerSet_decomp (hs : List (String × String)) (n v : String) :
    ∃ l1 l2, headerSet hs n v = l1 ++ (n, v) :: l2 ∧
      (∀ p ∈ l1, lowerStr p.1 ≠ lowerStr n) ∧
      (∀ p ∈ l2, lowerStr p.1 ≠ lowerStr n) := by
  induction hs with
  | nil => exact ⟨[], [], rfl, fun p hp => absurd hp (List.not_mem_nil p), fun p hp =>
      absurd hp (List.not_mem_nil p)⟩
  | cons hd tl ih =>
    obtain ⟨k, w⟩ := hd
    by_cases hk : lowerStr k = lowerStr n
    · refine ⟨[], removeHeaderCI tl n, ?_, fun p hp => absurd hp (List.not_mem_nil p),
        fun p hp => mem_removeHeaderCI tl n p hp⟩
      rw [headerSet, if_pos hk]
      rfl
    · obtain ⟨l1, l2, heq, h1, h2⟩ := ih
      refine ⟨(k, w) :: l1, l2, ?_, ?_, h2⟩
      · rw [headerSet, if_neg hk, heq]
        rfl
      · intro p hp
        rcases List.mem_cons.mp hp with hh | hh
        · rw [hh]
          exact hk
        · exact h1 p hh

theorem alookup_foldl_upd_preserve (hs : List (String × String))
    (acc : List (String × String)) (k : String)
    (h : ∀ p ∈ hs, lowerStr p.1 ≠ k) :
    alookup k (hs.foldl (fun acc p => upd (lowerStr p.1) p.2 acc) acc) = alookup k acc := by
  induction hs generalizing acc with
  | nil => rfl
  | cons hd tl ih =>
    rw [List.foldl_cons]
    rw [ih (upd (lowerStr hd.1) hd.2 acc) (fun p hp => h p (List.mem_cons_of_mem hd hp))]
    exact alookup_upd_ne (lowerStr hd.1) k hd.2 acc
      (fun hh => h hd (List.mem_cons_self hd tl) hh.symm)

theorem alookup_dictLower_headerSet (hs : List (String × String)) (n v : String) :
    alookup (lowerStr n) (dictLower (headerSet hs n v)) = some v := by
  obtain ⟨l1, l2, heq, h1, h2⟩ := headerSet_decomp hs n v
  rw [dictLower, heq, List.foldl_append, List.foldl_cons]
  rw [alookup_foldl_upd_preserve l2 _ (lowerStr n) h2]
  exact alookup_upd_self (lowerStr n) v _

theorem alookup_popKey_self (l : List (String × String)) (k : String) :
    alookup k (popKey l k) = none := by
  induction l with
  | nil => rfl
  | cons hd tl ih =>
    obtain ⟨k1, w⟩ := hd
    by_cases hk : k1 = k
    · rw [popKey, if_pos hk]
      exact ih
    · rw [popKey, if_neg hk, alookup, if_neg hk]
      exact ih

theorem alookup_popKey_ne (l : List (String × String)) (k k0 : String) (h : k ≠ k0) :
    alookup k (popKey l k0) = alookup k l := by
  induction l with
  | nil => rfl
  | cons hd tl ih =>
    obtain ⟨k1, w⟩ := hd
    by_cases hk : k1 = k0
    · have : ¬ k1 = k := by
        rw [hk]
        exact fun hh => h hh.symm
      rw [popKey, if_pos hk, alookup, if_neg this]
      exact ih
    · rw [popKey, if_neg hk, alookup, alookup]
      by_cases hk2 : k1 = k
      · rw [if_pos hk2, if_pos hk2]
      · rw [if_neg hk2, if_neg hk2]
        exact ih

theorem alookup_normalize_content_length (hs : List (String × String)) :
    alookup CONTENT_LENGTH_HEADER (normalize_headers hs) = none :=
  alookup_popKey_self _ _

theorem alookup_normalize_xrid (hs : List (String × String)) (rid : String) :
    alookup "x-request-id"
        (normalize_headers (headerSet hs REQUEST_ID_RESPONSE_HEADER rid)) = some rid := by
  rw [normalize_headers, alookup_popKey_ne _ _ _ (by decide)]
  exact alookup_dictLower_headerSet hs REQUEST_ID_RESPONSE_HEADER rid

/-! ## add_request_id lemmas -/

theorem add_request_id_fst (fresh : String) (reqH : List (String × String)) (resp : Response) :
    (add_request_id fresh reqH resp).1 = get_or_generate_request_id reqH fresh := by
  simp only [add_request_id]
  split
  · split
    · split
      · rfl
      · split <;> rfl
    · rfl
  · rfl

theorem add_request_id_carries (fresh : String) (reqH : List (String × String))
    (resp : Response) :
    carriesId (add_request_id fresh reqH resp).2 (add_request_id fresh reqH resp).1 := by
  simp only [add_request_id]
  split
  · split
    · split
      · exact headerGet_headerSet_self _ _ _
      · split
        · exact alookup_normalize_xrid _ _
        · exact headerGet_headerSet_self _ _ _
        · exact alookup_normalize_xrid _ _
    · exact headerGet_headerSet_self _ _ _
  · exact headerGet_headerSet_self _ _ _

/-! ## C7 — request-ID extraction and response header -/

/-- C7 counterexample: the first present header among the ordered variants
is `request-id` with the (empty) value `""`, but the middleware does not
honor it verbatim: the truthiness test `if request_id:` skips
present-but-empty values and the later variant `x-request-id` wins. -/
theorem empty_header_value_not_honored :
    headerGet [("request-id", ""), ("x-request-id", "abc")] "request-id" = some "" ∧
      get_or_generate_request_id [("request-id", ""), ("x-request-id", "abc")] "uuid-4" =
        "abc" ∧
      ("abc" : String) ≠ "" := by
  exact ⟨rfl, rfl, by decide⟩

/-- C7 (amended): the request ID is the value of the first header among
the ordered variants `request-id`, `Request-ID`, `X-Request-ID`,
`x-request-id` (matched case-insensitively, so the four variants collapse
to `request-id` then `x-request-id`) that is present with a non-empty
value; if every variant is absent or empty, the freshly generated UUID is
used; and the response forwarded by the middleware always carries that ID
under the `X-Request-ID` header. -/
theorem request_id_selection (fresh : String) (reqH : List (String × String))
    (resp : Response) :
    ((headerGet reqH "request-id" = none ∨ headerGet reqH "request-id" = some "") →
      (headerGet reqH "x-request-id" = none ∨ headerGet reqH "x-request-id" = some "") →
      (add_request_id fresh reqH resp).1 = fresh) ∧
      (∀ s, headerGet reqH "request-id" = some s → s ≠ "" →
        (add_request_id fresh reqH resp).1 = s) ∧
      (∀ s, (headerGet reqH "request-id" = none ∨ headerGet reqH "request-id" = some "") →
        headerGet reqH "x-request-id" = some s → s ≠ "" →
        (add_request_id fresh reqH resp).1 = s) ∧
      carriesId (add_request_id fresh reqH resp).2 (add_request_id fresh reqH resp).1 := by
  have e1 : headerGet reqH "Request-ID" = headerGet reqH "request-id" :=
    headerGet_congr reqH "Request-ID" "request-id" rfl
  have e2 : headerGet reqH "X-Request-ID" = headerGet reqH "x-request-id" :=
    headerGet_congr reqH "X-Request-ID" "x-request-id" rfl
  refine ⟨?_, ?_, ?_, add_request_id_carries fresh reqH resp⟩
  · intro h1 h2
    rw [add_request_id_fst]
    rcases h1 with h1 | h1 <;> rcases h2 with h2 | h2 <;>
      simp [get_or_generate_request_id, REQUEST_ID_HEADER_VARIANTS, firstTruthyHeader,
        e1, e2, h1, h2]
  · intro s h1 hne
    rw [add_request_id_fst]
    simp [get_or_generate_request_id, REQUEST_ID_HEADER_VARIANTS, firstTruthyHeader,
      e1, e2, h1, hne]
  · intro s h1 h2 hne
    rw [add_request_id_fst]
    rcases h1 with h1 | h1 <;>
      simp [get_or_generate_request_id, REQUEST_ID_HEADER_VARIANTS, firstTruthyHeader,
        e1, e2, h1, h2, hne]

theorem request_id_selection_witness :
    (add_request_id "uuid-4" [("X-Request-ID", "abc")] ⟨200, [], none⟩).1 = "abc" ∧
      carriesId (add_request_id "uuid-4" [("X-Request-ID", "abc")] ⟨200, [], none⟩).2
        (add_request_id "uuid-4" [("X-Request-ID", "abc")] ⟨200, [], none⟩).1 ∧
      (add_request_id "uuid-9" [] ⟨200, [], none⟩).1 = "uuid-9" := by
  have h := request_id_selection "uuid-4" [("X-Request-ID", "abc")] ⟨200, [], none⟩
  have h2 := request_id_selection "uuid-9" [] ⟨200, [], none⟩
  exact ⟨h.2.2.1 "abc" (Or.inl rfl) rfl (by decide), h.2.2.2,
    h2.1 (Or.inl rfl) (Or.inl rfl)⟩

theorem upd_append_of_absent {κ α : Type} [DecidableEq κ] (k : κ) (v : α)
    (l : List (κ × α)) (h : alookup k l = none) : upd k v l = l ++ [(k, v)] := by
  induction l with
  | nil => rfl
  | cons hd tl ih =>
    obtain ⟨k1, w⟩ := hd
    by_cases hk : k1 = k
    · rw [alookup, if_pos hk] at h
      cases h
    · rw [alookup, if_neg hk] at h
      rw [upd, if_neg hk, ih h]
      rfl

/-! ## C4 — stamping JSON mapping responses -/

/-- C4 counterexample: for a response whose JSON mapping body already
contains the key `request_id`, the stamping stage overwrites that entry
in place (Python dict assignment), so the re-emitted content is not the
original mapping plus one added key. -/
theorem request_id_key_overwritten :
    jsonLoadsBytes [asciiBytes "\x7b\x22request_id\x22: \x22old\x22\x7d"].flatten =
        some (.obj [("request_id", .str "old")]) ∧
      (add_request_id "uuid-4" [("X-Request-ID", "new")]
          ⟨200, [("content-type", "application/json")],
            some [asciiBytes "\x7b\x22request_id\x22: \x22old\x22\x7d"]⟩).2 =
        .jsonResponse (.obj [("request_id", .str "new")]) 200
          [("content-type", "application/json"), ("x-request-id", "new")] ∧
      (Json.obj [("request_id", .str "new")] ≠
        .obj ([("request_id", .str "old")] ++ [(REQUEST_ID_RESPONSE_KEY, .str "new")])) := by
  refine ⟨rfl, rfl, ?_⟩
  simp

/-- C4 (amended): for a response whose content-type starts with
`application/json` and whose drained body parses as a JSON mapping, the
re-emitted response is a fresh JSONResponse whose content is the original
mapping with the key `request_id` bound (Python dict assignment: appended
as exactly one new key when `request_id` was not already present,
overwriting the existing entry otherwise) to the request ID bound for the
request, and the re-emitted headers omit `content-length`. -/
theorem json_mapping_response_stamped (fresh rid : String)
    (reqH hs : List (String × String)) (st : Nat) (chunks : List (List Nat))
    (fields : List (String × Json)) (ct : String)
    (hrid : rid = get_or_generate_request_id reqH fresh)
    (hct : headerGet hs CONTENT_TYPE_HEADER = some ct)
    (hjson : strStartsWith ct APPLICATION_JSON = true)
    (hparse : jsonLoadsBytes chunks.flatten = some (.obj fields)) :
    (add_request_id fresh reqH ⟨st, hs, some chunks⟩).2 =
        .jsonResponse (.obj (upd REQUEST_ID_RESPONSE_KEY (.str rid) fields)) st
          (normalize_headers (headerSet hs REQUEST_ID_RESPONSE_HEADER rid)) ∧
      (alookup REQUEST_ID_RESPONSE_KEY fields = none →
        upd REQUEST_ID_RESPONSE_KEY (.str rid) fields =
          fields ++ [(REQUEST_ID_RESPONSE_KEY, .str rid)]) ∧
      alookup CONTENT_LENGTH_HEADER
        ((add_request_id fresh reqH ⟨st, hs, some chunks⟩).2.outHeaders) = none := by
  subst hrid
  have hct1 : headerGet
      (headerSet hs REQUEST_ID_RESPONSE_HEADER (get_or_generate_request_id reqH fresh))
      CONTENT_TYPE_HEADER = some ct := by
    rw [headerGet_headerSet_ne _ _ _ _ (by decide)]
    exact hct
  have hbody : ¬ chunks.flatten = [] := by
    intro hh
    rw [hh] at hparse
    cases hparse
  have h1 : (add_request_id fresh reqH ⟨st, hs, some chunks⟩).2 =
      .jsonResponse
        (.obj (upd REQUEST_ID_RESPONSE_KEY
          (.str (get_or_generate_request_id reqH fresh)) fields))
        st
        (normalize_headers (headerSet hs REQUEST_ID_RESPONSE_HEADER
          (get_or_generate_request_id reqH fresh))) := by
    simp only [add_request_id, hct1, Option.getD_some, hjson, if_true, hbody, if_false,
      hparse]
  refine ⟨h1, fun habs => upd_append_of_absent _ _ _ habs, ?_⟩
  rw [h1]
  exact alookup_normalize_content_length _

theorem json_mapping_response_stamped_witness :
    (add_request_id "uuid-4" [] ⟨200, [("content-type", "application/json")],
          some [asciiBytes "\x7b\x22a\x22: 1\x7d"]⟩).2 =
        .jsonResponse (.obj (upd REQUEST_ID_RESPONSE_KEY (.str "uuid-4") [("a", .num 1)]))
          200
          (normalize_headers
            (headerSet [("content-type", "application/json")] REQUEST_ID_RESPONSE_HEADER
              "uuid-4")) ∧
      upd REQUEST_ID_RESPONSE_KEY (Json.str "uuid-4") [("a", Json.num 1)] =
        [("a", Json.num 1)] ++ [(REQUEST_ID_RESPONSE_KEY, Json.str "uuid-4")] ∧
      alookup CONTENT_LENGTH_HEADER
        ((add_request_id "uuid-4" [] ⟨200, [("content-type", "application/json")],
            some [asciiBytes "\x7b\x22a\x22: 1\x7d"]⟩).2.outHeaders) = none := by
  have h := json_mapping_response_stamped "uuid-4" "uuid-4" []
    [("content-type", "application/json")] 200 [asciiBytes "\x7b\x22a\x22: 1\x7d"]
    [("a", .num 1)] "application/json" rfl rfl rfl rfl
  exact ⟨h.1, h.2.1 rfl, h.2.2⟩

/-! ## C10 — non-mapping JSON bodies: drained passthrough -/

/-- C10: for a response whose content-type starts with `application/json`
and whose non-empty drained body parses as valid JSON that is not a
mapping, the middleware returns the original response object (with the
`X-Request-ID` header set) whose body iterator has been fully drained
(exhausted), and the original `content-length` header is untouched (the
body bytes are not re-emitted and the headers are not normalized). -/
theorem nonmapping_json_drained_passthrough (fresh rid : String)
    (reqH hs : List (String × String)) (st : Nat) (chunks : List (List Nat))
    (j : Json) (ct : String)
    (hrid : rid = get_or_generate_request_id reqH fresh)
    (hct : headerGet hs CONTENT_TYPE_HEADER = some ct)
    (hjson : strStartsWith ct APPLICATION_JSON = true)
    (hparse : jsonLoadsBytes chunks.flatten = some j)
    (hnobj : ∀ fields, j ≠ .obj fields) :
    (add_request_id fresh reqH ⟨st, hs, some chunks⟩).2 =
        .passthrough ⟨st, headerSet hs REQUEST_ID_RESPONSE_HEADER rid, some []⟩ ∧
      headerGet (headerSet hs REQUEST_ID_RESPONSE_HEADER rid) CONTENT_LENGTH_HEADER =
        headerGet hs CONTENT_LENGTH_HEADER ∧
      headerGet (headerSet hs REQUEST_ID_RESPONSE_HEADER rid) REQUEST_ID_RESPONSE_HEADER =
        some rid := by
  subst hrid
  have hct1 : headerGet
      (headerSet hs REQUEST_ID_RESPONSE_HEADER (get_or_generate_request_id reqH fresh))
      CONTENT_TYPE_HEADER = some ct := by
    rw [headerGet_headerSet_ne _ _ _ _ (by decide)]
    exact hct
  have hbody : ¬ chunks.flatten = [] := by
    intro hh
    rw [hh] at hparse
    cases hparse
  refine ⟨?_, headerGet_headerSet_ne _ _ _ _ (by decide), headerGet_headerSet_self _ _ _⟩
  cases j with
  | null => simp only [add_request_id, hct1, Option.getD_some, hjson, if_true, hbody,
      if_false, hparse]
  | num n => simp only [add_request_id, hct1, Option.getD_some, hjson, if_true, hbody,
      if_false, hparse]
  | str s => simp only [add_request_id, hct1, Option.getD_some, hjson, if_true, hbody,
      if_false, hparse]
  | arr xs => simp only [add_request_id, hct1, Option.getD_some, hjson, if_true, hbody,
      if_false, hparse]
  | obj fields => exact absurd rfl (hnobj fields)

theorem nonmapping_json_drained_passthrough_witness :
    (add_request_id "uuid-4" [] ⟨200,
          [("content-type", "application/json"), ("content-length", "6")],
          some [asciiBytes "[1, 2]"]⟩).2 =
        .passthrough ⟨200,
          headerSet [("content-type", "application/json"), ("content-length", "6")]
            REQUEST_ID_RESPONSE_HEADER "uuid-4", some []⟩ ∧
      headerGet
          (headerSet [("content-type", "application/json"), ("content-length", "6")]
            REQUEST_ID_RESPONSE_HEADER "uuid-4") CONTENT_LENGTH_HEADER = some "6" := by
  have h := nonmapping_json_drained_passthrough "uuid-4" "uuid-4" []
    [("content-type", "application/json"), ("content-length", "6")] 200
    [asciiBytes "[1, 2]"] (.arr [.num 1, .num 2]) "application/json" rfl rfl rfl rfl
    (fun fields hh => Json.noConfusion hh)
  exact ⟨h.1, h.2.1.trans rfl⟩

/-! ## C8 — excluded-paths logging policy -/

/-- C8: the logging middleware computes
`should_log = path not in const.EXCLUDED_LOG_PATHS` (line 116 of
`middleware.py`), but `src/common/constants.py` defines no
`EXCLUDED_LOG_PATHS` attribute, so for every request — excluded path or
not — the middleware raises `AttributeError` before emitting any log line
or invoking the downstream handler; no request gets the claimed logging
behaviour. -/
theorem excluded_paths_constant_missing (method path clientIp : String) :
    log_request_should_log method path clientIp =
        .error
          ("AttributeError: module common.constants has no attribute EXCLUDED_LOG_PATHS") ∧
      alookup "EXCLUDED_LOG_PATHS" constantsModule = none := by
  exact ⟨rfl, rfl⟩

/-! ## C6 — get_component_metadata returns a shallow copy -/

theorem alookup_cons_ne {α : Type} (k k0 : Nat) (v : α) (l : List (Nat × α)) (h : k0 ≠ k) :
    alookup k ((k0, v) :: l) = alookup k l := by
  rw [alookup, if_neg h]

theorem alookup_map_setIf {α : Type} (l : List (Nat × α)) (t k : Nat) (f : α → α)
    (h : k ≠ t) :
    alookup k (l.map (fun p => if p.1 = t then (p.1, f p.2) else p)) = alookup k l := by
  induction l with
  | nil => rfl
  | cons hd tl ih =>
    obtain ⟨k1, w⟩ := hd
    by_cases hk : k1 = t
    · have hne : ¬ k1 = k := by
        rw [hk]
        exact fun hh => h hh.symm
      simp only [List.map_cons, if_pos hk]
      rw [alookup, if_neg hne, alookup, if_neg hne]
      exact ih
    · simp only [List.map_cons, if_neg hk]
      rw [alookup, alookup]
      by_cases hk2 : k1 = k
      · rw [if_pos hk2, if_pos hk2]
      · rw [if_neg hk2, if_neg hk2]
        exact ih

/-- C6 counterexample: a concrete registry heap — `_component_metadata`
at address 0 maps `mysql` to the list object at address 1, holding the
entry dict at address 2 with `status = down`.  The caller obtains the
value returned by `get_component_metadata` (fresh top-level dict at
address 3 sharing list address 1 and entry address 2), mutates the entry
dict reached through the returned value (`item["status"] = "up"`, exactly
what `_update_component_status` does), and the metadata stored in the
registry changes: the claim that no mutation of the returned value can
change registry state is false. -/
theorem metadata_shallow_copy_leaks :
    (get_component_metadata ⟨3, [(0, [("mysql", 1)])], [(1, [2])],
          [(2, [("host", "h1"), ("status", "down")])]⟩ 0).2 = 3 ∧
      alookup 3 (get_component_metadata ⟨3, [(0, [("mysql", 1)])], [(1, [2])],
          [(2, [("host", "h1"), ("status", "down")])]⟩ 0).1.tops =
        some [("mysql", 1)] ∧
      Heap.derefMeta
          (Heap.setEntryField
            (get_component_metadata ⟨3, [(0, [("mysql", 1)])], [(1, [2])],
              [(2, [("host", "h1"), ("status", "down")])]⟩ 0).1 2 "status" "up") 0 ≠
        Heap.derefMeta ⟨3, [(0, [("mysql", 1)])], [(1, [2])],
          [(2, [("host", "h1"), ("status", "down")])]⟩ 0 := by
  exact ⟨rfl, rfl, by decide⟩

/-- C6 (amended): `get_component_metadata` returns a shallow copy — a
fresh top-level dict object (a new address, distinct from the registry's)
holding the same references to the per-component metadata lists.
Rebinding names on the returned mapping does not change the metadata the
registry sees, but the nested list and entry-dict objects are shared, so
an in-place mutation of an entry dict performed through the returned
value has exactly the same effect on the registry's stored metadata as
mutating the registry's own structure (this sharing is what
`_update_component_status` relies on). -/
theorem metadata_shallow_copy_semantics (h : Heap) (regAddr : Nat)
    (m : List (String × Nat)) (hwf : regAddr ≠ h.next)
    (hm : alookup regAddr h.tops = some m) :
    (get_component_metadata h regAddr).2 ≠ regAddr ∧
      alookup (get_component_metadata h regAddr).2
        (get_component_metadata h regAddr).1.tops = some m ∧
      (∀ n a, Heap.derefMeta
          (Heap.topSet (get_component_metadata h regAddr).1
            (get_component_metadata h regAddr).2 n a) regAddr =
        Heap.derefMeta h regAddr) ∧
      (∀ e k v, Heap.derefMeta
          (Heap.setEntryField (get_component_metadata h regAddr).1 e k v) regAddr =
        Heap.derefMeta (Heap.setEntryField h e k v) regAddr) := by
  have hne : h.next ≠ regAddr := fun hh => hwf hh.symm
  refine ⟨fun hh => hwf hh.symm, ?_, ?_, ?_⟩
  · show alookup h.next ((h.next, (alookup regAddr h.tops).getD []) :: h.tops) = some m
    rw [alookup, if_pos rfl, hm]
    rfl
  · intro n a
    show Heap.derefMeta
        ⟨h.next + 1,
          (((h.next, (alookup regAddr h.tops).getD []) :: h.tops).map
            (fun p => if p.1 = h.next then (p.1, upd n a p.2) else p)),
          h.lists, h.entries⟩ regAddr =
      Heap.derefMeta h regAddr
    rw [Heap.derefMeta, Heap.derefMeta]
    rw [alookup_map_setIf _ _ _ _ hwf]
    rw [alookup_cons_ne _ _ _ _ hne]
  · intro e k v
    rw [Heap.derefMeta, Heap.derefMeta]
    show (((alookup regAddr
        ((h.next, (alookup regAddr h.tops).getD []) :: h.tops)).getD []).map _) = _
    rw [alookup_cons_ne _ _ _ _ hne]
    rfl

theorem metadata_shallow_copy_semantics_witness :
    (get_component_metadata ⟨3, [(0, [("mysql", 1)])], [(1, [2])],
          [(2, [("host", "h1"), ("status", "down")])]⟩ 0).2 ≠ 0 ∧
      (∀ n a, Heap.derefMeta
          (Heap.topSet (get_component_metadata ⟨3, [(0, [("mysql", 1)])], [(1, [2])],
              [(2, [("host", "h1"), ("status", "down")])]⟩ 0).1
            (get_component_metadata ⟨3, [(0, [("mysql", 1)])], [(1, [2])],
              [(2, [("host", "h1"), ("status", "down")])]⟩ 0).2 n a) 0 =
        Heap.derefMeta ⟨3, [(0, [("mysql", 1)])], [(1, [2])],
          [(2, [("host", "h1"), ("status", "down")])]⟩ 0) := by
  have hh := metadata_shallow_copy_semantics ⟨3, [(0, [("mysql", 1)])], [(1, [2])],
    [(2, [("host", "h1"), ("status", "down")])]⟩ 0 [("mysql", 1)] (by decide) rfl
  exact ⟨hh.1, hh.2.2.1⟩

/-! ## C9 — configuration loading error handling -/

/-- C9 counterexample: with a first candidate file that exists but is
malformed and a second candidate that is valid, `InitializeConfig` logs
the error for the malformed file and then *falls through* and loads the
second candidate — startup continues and configuration is applied, so a
malformed candidate does not produce a hard error; the asymmetry with a
missing file is only that the missing file logs nothing. -/
theorem malformed_candidate_falls_through :
    tryRead (FileState.content "not json") = .error "JSONDecodeError" ∧
      (InitializeConfig [FileState.content "not json",
          FileState.content "\x7b\x22SERVER_PORT\x22: 9\x7d"]).loadedFrom = some 1 ∧
      (InitializeConfig [FileState.content "not json",
          FileState.content "\x7b\x22SERVER_PORT\x22: 9\x7d"]).errorLogs =
        ["JSONDecodeError"] ∧
      alookup "SERVER_PORT" (InitializeConfig [FileState.content "not json",
          FileState.content "\x7b\x22SERVER_PORT\x22: 9\x7d"]).env = some (.num 9) ∧
      (InitializeConfig [FileState.content "not json",
          FileState.content "\x7b\x22SERVER_PORT\x22: 9\x7d"]).finalErrorLogged = false := by
  exact ⟨rfl, rfl, rfl, rfl, rfl⟩

/-- C9 (amended): a candidate config file that exists but is malformed
JSON or unreadable raises inside `_try_read`; `InitializeConfig` catches
the error, surfaces it to the operator as an error log, and loading falls
through to the next candidate path (or ultimately to the built-in
defaults) exactly as for a missing file — whereas a missing candidate is
not an error: `_try_read` returns `None`, nothing is logged, and loading
falls through silently; the first candidate that parses as a mapping
updates the `Env` defaults and stops the search. -/
theorem config_error_handling (f : FileState) (e : String) (env : List (String × Json))
    (rest : List FileState) :
    tryRead FileState.missing = .ok none ∧
      (∀ e2, tryRead (FileState.unreadable e2) = .error e2) ∧
      (∀ text, jsonParseChars text.data = none →
        tryRead (FileState.content text) = .error "JSONDecodeError") ∧
      (tryRead f = .error e →
        initializeConfigLoop env (f :: rest) =
          ⟨(initializeConfigLoop env rest).env,
            e :: (initializeConfigLoop env rest).errorLogs,
            (initializeConfigLoop env rest).loadedFrom.map (· + 1),
            (initializeConfigLoop env rest).finalErrorLogged⟩) ∧
      initializeConfigLoop env (FileState.missing :: rest) =
        ⟨(initializeConfigLoop env rest).env,
          (initializeConfigLoop env rest).errorLogs,
          (initializeConfigLoop env rest).loadedFrom.map (· + 1),
          (initializeConfigLoop env rest).finalErrorLogged⟩ ∧
      (∀ text kvs, jsonParseChars text.data = some (.obj kvs) →
        initializeConfigLoop env (FileState.content text :: rest) =
          ⟨update_from_dict env kvs, [], some 0, false⟩) := by
  refine ⟨rfl, fun e2 => rfl, ?_, ?_, ?_, ?_⟩
  · intro text hp
    rw [tryRead, hp]
  · intro he
    rw [initializeConfigLoop, he]
  · rfl
  · intro text kvs hp
    rw [initializeConfigLoop, tryRead, hp]

theorem config_error_handling_witness :
    initializeConfigLoop defaultEnv [FileState.content "not json"] =
        ⟨defaultEnv, ["JSONDecodeError"], none, true⟩ ∧
      initializeConfigLoop defaultEnv
          [FileState.content "\x7b\x22SERVER_PORT\x22: 9\x7d"] =
        ⟨update_from_dict defaultEnv [("SERVER_PORT", .num 9)], [], some 0, false⟩ := by
  have h1 := config_error_handling (FileState.content "not json") "JSONDecodeError"
    defaultEnv []
  have h2 := config_error_handling FileState.missing "" defaultEnv []
  exact ⟨h1.2.2.2.1 rfl, h2.2.2.2.2.2 "\x7b\x22SERVER_PORT\x22: 9\x7d"
    [("SERVER_PORT", .num 9)] rfl⟩
